import Mathlib

/-!
Verification development for the ccbot chat-to-terminal bridge.

Shallow embedding of the Python source under `src/ccbot/`:
  * `session.py` — the `SessionManager` state hub (thread bindings, reverse
    index, window states, read offsets, unread info);
  * `handlers/message_queue.py` — the per-user delivery queue (merge of
    content tasks, tool-result editing);
  * `session_monitor.py` — incremental transcript reading with truncation
    detection;
  * `terminal_parser.py` — status-line and interactive-UI extraction;
  * `multiplexer/tmux_backend.py` — the `send_keys` text/Enter sequencing.

Python dicts are embedded as association lists (`dget` / `dset` / `derase`
mirror `d.get`, `d[k] = v` and `d.pop(k)`); Python `int` becomes `Int`,
`str` becomes `String`, `None`-able values become `Option`.  Awaited chat
or multiplexer calls are embedded as entries of an explicit action trace,
with oracle booleans standing for the success or failure of each external
call.
-/

namespace Ccbot

/-! ## Association-list embedding of Python dicts -/

variable {κ : Type} {α : Type}

/-- `d.get(k)`: the value at the first entry whose key is `k`. -/
def dget [DecidableEq κ] : List (κ × α) → κ → Option α
  | [], _ => none
  | (k', v) :: rest, k => if k' = k then some v else dget rest k

/-- `d[k] = v`: replace the first entry with key `k`, or append. -/
def dset [DecidableEq κ] : List (κ × α) → κ → α → List (κ × α)
  | [], k, v => [(k, v)]
  | (k', v') :: rest, k, v =>
      if k' = k then (k, v) :: rest else (k', v') :: dset rest k v

/-- `d.pop(k, None)`: remove the first entry with key `k` (if any). -/
def derase [DecidableEq κ] : List (κ × α) → κ → List (κ × α)
  | [], _ => []
  | (k', v') :: rest, k => if k' = k then rest else (k', v') :: derase rest k

/-- The keys of an association list, in order. -/
def dkeys (d : List (κ × α)) : List κ := d.map Prod.fst

theorem dget_dset_self [DecidableEq κ] (d : List (κ × α)) (k : κ) (v : α) :
    dget (dset d k v) k = some v := by
  induction d with
  | nil => simp [dget, dset]
  | cons p rest ih =>
    by_cases h : p.1 = k <;> simp [dget, dset, h, ih]

theorem dget_dset_ne [DecidableEq κ] (d : List (κ × α)) (k k' : κ) (v : α)
    (h : k' ≠ k) : dget (dset d k v) k' = dget d k' := by
  induction d with
  | nil => simp [dget, dset, Ne.symm h]
  | cons p rest ih =>
    by_cases hp : p.1 = k
    · simp [dget, dset, hp, Ne.symm h]
    · simp [dget, dset, hp, ih]

theorem dget_derase_ne [DecidableEq κ] (d : List (κ × α)) (k k' : κ)
    (h : k' ≠ k) : dget (derase d k) k' = dget d k' := by
  induction d with
  | nil => simp [derase]
  | cons p rest ih =>
    by_cases hp : p.1 = k
    · simp [dget, derase, hp, Ne.symm h]
    · simp [dget, derase, hp, ih]

theorem dget_eq_none_of_not_mem [DecidableEq κ] (d : List (κ × α)) (k : κ)
    (h : k ∉ dkeys d) : dget d k = none := by
  induction d with
  | nil => rfl
  | cons p rest ih =>
    simp only [dkeys, List.map_cons, List.mem_cons, not_or] at h
    simp [dget, Ne.symm h.1, ih (by simpa [dkeys] using h.2)]

theorem dget_derase_self [DecidableEq κ] (d : List (κ × α)) (k : κ)
    (hnd : (dkeys d).Nodup) : dget (derase d k) k = none := by
  induction d with
  | nil => rfl
  | cons p rest ih =>
    simp only [dkeys, List.map_cons, List.nodup_cons] at hnd
    by_cases hp : p.1 = k
    · simp only [derase, if_pos hp]
      exact dget_eq_none_of_not_mem rest k (fun hm => hnd.1 (hp ▸ hm))
    · simp [derase, hp, dget, ih hnd.2]

theorem mem_dset [DecidableEq κ] (d : List (κ × α)) (k : κ) (v : α) (p : κ × α)
    (h : p ∈ dset d k v) : p ∈ d ∨ p = (k, v) := by
  induction d with
  | nil => simp only [dset, List.mem_singleton] at h; exact Or.inr h
  | cons q rest ih =>
    by_cases hq : q.1 = k
    · simp only [dset, if_pos hq] at h
      rcases List.mem_cons.1 h with h' | h'
      · exact Or.inr h'
      · exact Or.inl (List.mem_cons_of_mem _ h')
    · simp only [dset, if_neg hq] at h
      rcases List.mem_cons.1 h with h' | h'
      · exact Or.inl (h' ▸ List.mem_cons_self _ _)
      · rcases ih h' with h'' | h''
        · exact Or.inl (List.mem_cons_of_mem _ h'')
        · exact Or.inr h''

theorem mem_dkeys_dset [DecidableEq κ] (d : List (κ × α)) (k k' : κ) (v : α)
    (h : k' ∈ dkeys (dset d k v)) : k' ∈ dkeys d ∨ k' = k := by
  rcases List.mem_map.1 h with ⟨p, hp, hp1⟩
  rcases mem_dset d k v p hp with h1 | h1
  · exact Or.inl (hp1 ▸ List.mem_map_of_mem Prod.fst h1)
  · exact Or.inr (by rw [← hp1, h1])

theorem dkeys_dset_nodup [DecidableEq κ] (d : List (κ × α)) (k : κ) (v : α)
    (hnd : (dkeys d).Nodup) : (dkeys (dset d k v)).Nodup := by
  induction d with
  | nil => simp [dset, dkeys]
  | cons p rest ih =>
    simp only [dkeys, List.map_cons, List.nodup_cons] at hnd
    by_cases hp : p.1 = k
    · simp only [dset, if_pos hp, dkeys, List.map_cons, List.nodup_cons]
      exact ⟨fun hm => hnd.1 (hp ▸ hm), hnd.2⟩
    · simp only [dset, if_neg hp, dkeys, List.map_cons, List.nodup_cons]
      refine ⟨fun hm => ?_, ih hnd.2⟩
      rcases mem_dkeys_dset rest k p.1 v hm with h1 | h1
      · exact hnd.1 h1
      · exact hp h1

theorem dkeys_derase_sublist [DecidableEq κ] (d : List (κ × α)) (k : κ) :
    (dkeys (derase d k)).Sublist (dkeys d) := by
  induction d with
  | nil => simp [derase]
  | cons p rest ih =>
    by_cases hp : p.1 = k
    · simp only [derase, if_pos hp, dkeys, List.map_cons]
      exact List.sublist_cons_self _ _
    · simp only [derase, if_neg hp, dkeys, List.map_cons]
      exact ih.cons₂ _

theorem dkeys_derase_nodup [DecidableEq κ] (d : List (κ × α)) (k : κ)
    (hnd : (dkeys d).Nodup) : (dkeys (derase d k)).Nodup :=
  (dkeys_derase_sublist d k).nodup hnd

theorem dset_ne_nil [DecidableEq κ] (d : List (κ × α)) (k : κ) (v : α) :
    dset d k v ≠ [] := by
  cases d with
  | nil => simp [dset]
  | cons p rest =>
    by_cases hp : p.1 = k <;> simp [dset, hp]

theorem mem_derase [DecidableEq κ] (d : List (κ × α)) (k : κ) (p : κ × α)
    (h : p ∈ derase d k) : p ∈ d := by
  induction d with
  | nil => simp only [derase] at h; exact absurd h (List.not_mem_nil p)
  | cons q rest ih =>
    by_cases hq : q.1 = k
    · simp only [derase, if_pos hq] at h
      exact List.mem_cons_of_mem _ h
    · simp only [derase, if_neg hq] at h
      rcases List.mem_cons.1 h with h' | h'
      · exact h' ▸ List.mem_cons_self _ _
      · exact List.mem_cons_of_mem _ (ih h')

/-! ## Session store (`src/ccbot/session.py`, class `SessionManager`)

`SessionManager` holds four maps (`window_states`, `user_window_offsets`,
`thread_bindings` and the in-memory reverse index `_window_to_thread`).
Persistence (`_save_state`) and file I/O are orthogonal to the claims and
are not embedded; every mutator below is the pure state transformer of the
corresponding Python method. -/

/-- `WindowState` from `session.py`: `session_id` and `cwd`. -/
structure WindowState where
  session_id : String := ""
  cwd : String := ""
deriving DecidableEq

/-- The in-memory state of `SessionManager`. -/
structure SMState where
  window_states : List (String × WindowState) := []
  user_window_offsets : List (Int × List (String × Nat)) := []
  thread_bindings : List (Int × List (Int × String)) := []
  window_to_thread : List ((Int × String) × Int) := []
deriving DecidableEq

/-- The freshly-initialized manager (empty persisted state). -/
def initState : SMState := {}

/-- `SessionManager.bind_thread`: create the user's inner dict if missing,
set `thread_bindings[user][thread] = window` and update the reverse index
`_window_to_thread[(user, window)] = thread`. -/
def bind_thread (s : SMState) (user_id thread_id : Int) (window_name : String) :
    SMState :=
  let inner := (dget s.thread_bindings user_id).getD []
  { s with
    thread_bindings := dset s.thread_bindings user_id (dset inner thread_id window_name),
    window_to_thread := dset s.window_to_thread (user_id, window_name) thread_id }

/-- `SessionManager.unbind_thread`: pop the thread from the user's bindings
(returning the previously bound window), drop the reverse-index entry, and
delete the user's dict when it becomes empty.  `if not bindings` treats an
empty dict like a missing one. -/
def unbind_thread (s : SMState) (user_id thread_id : Int) :
    SMState × Option String :=
  match dget s.thread_bindings user_id with
  | none => (s, none)
  | some inner =>
    if inner = [] then (s, none)
    else
      match dget inner thread_id with
      | none => (s, none)
      | some window_name =>
        let inner' := derase inner thread_id
        let tb :=
          if inner' = [] then derase s.thread_bindings user_id
          else dset s.thread_bindings user_id inner'
        ({ s with
            thread_bindings := tb,
            window_to_thread := derase s.window_to_thread (user_id, window_name) },
          some window_name)

/-- `SessionManager.get_window_for_thread`: forward lookup
(`if not bindings: return None; return bindings.get(thread_id)`). -/
def get_window_for_thread (s : SMState) (user_id thread_id : Int) :
    Option String :=
  match dget s.thread_bindings user_id with
  | none => none
  | some inner => if inner = [] then none else dget inner thread_id

/-- `SessionManager.get_thread_for_window`: reverse lookup via the index. -/
def get_thread_for_window (s : SMState) (user_id : Int) (window_name : String) :
    Option Int :=
  dget s.window_to_thread (user_id, window_name)

/-- `SessionManager.get_window_state`: get-or-create (mutates the map when
the window is missing).  Returns the updated state and the looked-up value. -/
def get_window_state (s : SMState) (window_name : String) :
    SMState × WindowState :=
  match dget s.window_states window_name with
  | some st => (s, st)
  | none =>
    ({ s with window_states := dset s.window_states window_name {} }, {})

/-- `SessionManager.clear_window_session`: `get_window_state` followed by
`state.session_id = ""` (an in-place mutation of the stored object). -/
def clear_window_session (s : SMState) (window_name : String) : SMState :=
  let (s1, st) := get_window_state s window_name
  { s1 with
    window_states := dset s1.window_states window_name { st with session_id := "" } }

/-- `SessionManager.get_user_window_offset`: nested lookup, `none` when the
user or the window has no recorded offset. -/
def get_user_window_offset (s : SMState) (user_id : Int) (window_name : String) :
    Option Nat :=
  match dget s.user_window_offsets user_id with
  | none => none
  | some offsets => dget offsets window_name

/-- `UnreadInfo` from `session.py`. -/
structure UnreadInfo where
  has_unread : Bool
  start_offset : Nat
  end_offset : Nat
deriving DecidableEq

/-- The offset logic of `SessionManager.get_unread_info` once the window's
session has been resolved and the transcript file's size read (the earlier
`None` returns of the Python method are resolution/IO failures): a missing
per-user offset yields no unread content at `file_size`; an offset beyond
the file size (truncation, e.g. after `/clear`) is reset to `0`. -/
def get_unread_info (s : SMState) (user_id : Int) (window_name : String)
    (file_size : Nat) : UnreadInfo :=
  match get_user_window_offset s user_id window_name with
  | none =>
    { has_unread := false, start_offset := file_size, end_offset := file_size }
  | some user_offset =>
    let user_offset := if user_offset > file_size then 0 else user_offset
    { has_unread := user_offset < file_size,
      start_offset := user_offset,
      end_offset := file_size }

/-! ### Operation sequences over the binding store -/

/-- A store operation from the claims: `bind_thread` or `unbind_thread`. -/
inductive Op where
  | bind (user_id thread_id : Int) (window_name : String)
  | unbind (user_id thread_id : Int)
deriving DecidableEq

/-- Apply one operation (the unbind return value is discarded). -/
def applyOp (s : SMState) : Op → SMState
  | .bind u t w => bind_thread s u t w
  | .unbind u t => (unbind_thread s u t).1

/-- Run a sequence of operations from a starting state. -/
def runFrom (s : SMState) (ops : List Op) : SMState := ops.foldl applyOp s

/-- The forward map and the reverse index agree: a thread maps to a window
exactly when the reverse index maps that window back to the thread. -/
def Agree (s : SMState) : Prop :=
  ∀ (u t : Int) (w : String),
    get_window_for_thread s u t = some w ↔ get_thread_for_window s u w = some t

/-- Structural well-formedness mirroring Python dicts: unique keys
everywhere, and no user entry holds an empty inner dict (bind always adds
an entry and unbind deletes the user key once the dict empties). -/
def WF (s : SMState) : Prop :=
  (dkeys s.thread_bindings).Nodup ∧
  (∀ p ∈ s.thread_bindings, (dkeys p.2).Nodup ∧ p.2 ≠ []) ∧
  (dkeys s.window_to_thread).Nodup

/-- A guarded operation sequence: every `bind_thread` targets a thread and
a window that are both currently unbound — exactly the checks the command
handlers (`/bind`, directory selection) perform before calling the store. -/
inductive Guarded : SMState → List Op → Prop where
  | nil (s : SMState) : Guarded s []
  | bind (s : SMState) (u t : Int) (w : String) (ops : List Op)
      (hthread : get_window_for_thread s u t = none)
      (hwindow : get_thread_for_window s u w = none)
      (htail : Guarded (bind_thread s u t w) ops) :
      Guarded s (Op.bind u t w :: ops)
  | unbind (s : SMState) (u t : Int) (ops : List Op)
      (htail : Guarded (applyOp s (Op.unbind u t)) ops) :
      Guarded s (Op.unbind u t :: ops)

/-! ### Auxiliary facts about the binding store -/

theorem dget_mem [DecidableEq κ] (d : List (κ × α)) (k : κ) (v : α)
    (h : dget d k = some v) : (k, v) ∈ d := by
  induction d with
  | nil => simp [dget] at h
  | cons p rest ih =>
    rcases p with ⟨pk, pv⟩
    by_cases hp : pk = k
    · subst hp
      simp only [dget, if_pos rfl, eq_self_iff_true, if_true, Option.some.injEq] at h
      subst h
      exact List.mem_cons_self _ _
    · simp only [dget, if_neg hp] at h
      exact List.mem_cons_of_mem _ (ih h)

theorem derase_eq_nil [DecidableEq κ] (d : List (κ × α)) (k : κ)
    (h : derase d k = []) : d = [] ∨ ∃ v, d = [(k, v)] := by
  cases d with
  | nil => exact Or.inl rfl
  | cons p rest =>
    rcases p with ⟨pk, pv⟩
    by_cases hp : pk = k
    · subst hp
      simp only [derase, if_pos rfl] at h
      subst h
      exact Or.inr ⟨pv, rfl⟩
    · simp only [derase, if_neg hp] at h
      exact absurd h (List.cons_ne_nil _ _)

theorem gwft_bind_ne (s : SMState) (u t : Int) (w : String) (u' t' : Int)
    (h : u' ≠ u) :
    get_window_for_thread (bind_thread s u t w) u' t' =
      get_window_for_thread s u' t' := by
  simp only [get_window_for_thread, bind_thread]
  rw [dget_dset_ne _ _ _ _ h]

theorem gwft_bind_self_t (s : SMState) (u t : Int) (w : String) :
    get_window_for_thread (bind_thread s u t w) u t = some w := by
  simp [get_window_for_thread, bind_thread, dget_dset_self, dset_ne_nil]

theorem gwft_bind_self_ne_t (s : SMState) (u t : Int) (w : String) (t' : Int)
    (h : t' ≠ t) :
    get_window_for_thread (bind_thread s u t w) u t' =
      get_window_for_thread s u t' := by
  simp only [get_window_for_thread, bind_thread]
  rw [dget_dset_self]
  cases htb : dget s.thread_bindings u with
  | none => simp [htb, dset_ne_nil, dget_dset_ne _ _ _ _ h, dget, Ne.symm h]
  | some inner =>
    by_cases hin : inner = []
    · subst hin
      simp [htb, dset_ne_nil, dget_dset_ne _ _ _ _ h, dget, Ne.symm h]
    · simp [htb, hin, dset_ne_nil, dget_dset_ne _ _ _ _ h]

theorem gtfw_bind_self (s : SMState) (u t : Int) (w : String) :
    get_thread_for_window (bind_thread s u t w) u w = some t := by
  simp [get_thread_for_window, bind_thread, dget_dset_self]

theorem gtfw_bind_ne (s : SMState) (u t : Int) (w : String) (u' : Int)
    (w' : String) (h : (u', w') ≠ (u, w)) :
    get_thread_for_window (bind_thread s u t w) u' w' =
      get_thread_for_window s u' w' := by
  simp only [get_thread_for_window, bind_thread]
  rw [dget_dset_ne _ _ _ _ h]

theorem wf_initState : WF initState := by
  refine ⟨by simp [initState, dkeys], ?_, by simp [initState, dkeys]⟩
  intro p hp
  simp [initState] at hp

theorem agree_initState : Agree initState := by
  intro u t w
  simp [get_window_for_thread, get_thread_for_window, initState, dget]

theorem wf_bind (s : SMState) (u t : Int) (w : String) (h : WF s) :
    WF (bind_thread s u t w) := by
  obtain ⟨h1, h2, h3⟩ := h
  refine ⟨dkeys_dset_nodup _ _ _ h1, ?_, dkeys_dset_nodup _ _ _ h3⟩
  intro p hp
  rcases mem_dset _ _ _ _ hp with hmem | heq
  · exact h2 p hmem
  · subst heq
    refine ⟨?_, dset_ne_nil _ _ _⟩
    apply dkeys_dset_nodup
    cases htb : dget s.thread_bindings u with
    | none => simp [htb, dkeys]
    | some inner => simpa [htb] using (h2 _ (dget_mem _ _ _ htb)).1

theorem wf_unbind (s : SMState) (u t : Int) (h : WF s) :
    WF (unbind_thread s u t).1 := by
  obtain ⟨h1, h2, h3⟩ := h
  cases htb : dget s.thread_bindings u with
  | none => simp only [unbind_thread, htb]; exact ⟨h1, h2, h3⟩
  | some inner =>
    by_cases hin : inner = []
    · simp only [unbind_thread, htb, if_pos hin]; exact ⟨h1, h2, h3⟩
    · cases hdg : dget inner t with
      | none => simp only [unbind_thread, htb, if_neg hin, hdg]; exact ⟨h1, h2, h3⟩
      | some w0 =>
        have hinnd : (dkeys inner).Nodup := (h2 _ (dget_mem _ _ _ htb)).1
        by_cases hin' : derase inner t = []
        · simp only [unbind_thread, htb, if_neg hin, hdg, if_pos hin']
          refine ⟨dkeys_derase_nodup _ _ h1, ?_, dkeys_derase_nodup _ _ h3⟩
          intro p hp
          exact h2 p (mem_derase _ _ _ hp)
        · simp only [unbind_thread, htb, if_neg hin, hdg, if_neg hin']
          refine ⟨dkeys_dset_nodup _ _ _ h1, ?_, dkeys_derase_nodup _ _ h3⟩
          intro p hp
          rcases mem_dset _ _ _ _ hp with hmem | heq
          · exact h2 p hmem
          · subst heq
            exact ⟨dkeys_derase_nodup _ _ hinnd, hin'⟩

theorem wf_applyOp (s : SMState) (op : Op) (h : WF s) : WF (applyOp s op) := by
  cases op with
  | bind u t w => exact wf_bind s u t w h
  | unbind u t => exact wf_unbind s u t h

theorem wf_runFrom (s : SMState) (ops : List Op) (h : WF s) :
    WF (runFrom s ops) := by
  induction ops generalizing s with
  | nil => exact h
  | cons op rest ih => exact ih _ (wf_applyOp s op h)

theorem agree_bind (s : SMState) (u t : Int) (w : String)
    (ha : Agree s)
    (hthread : get_window_for_thread s u t = none)
    (hwindow : get_thread_for_window s u w = none) :
    Agree (bind_thread s u t w) := by
  intro u' t' w'
  by_cases hu : u' = u
  · subst hu
    by_cases ht : t' = t
    · subst ht
      by_cases hw : w' = w
      · subst hw
        simp [gwft_bind_self_t, gtfw_bind_self]
      · rw [gwft_bind_self_t, gtfw_bind_ne _ _ _ _ _ _ (by simp [hw])]
        constructor
        · intro h
          exact absurd (Option.some.inj h).symm hw
        · intro h
          have := (ha _ _ _).2 h
          rw [hthread] at this
          cases this
    · rw [gwft_bind_self_ne_t _ _ _ _ _ ht]
      by_cases hw : w' = w
      · subst hw
        rw [gtfw_bind_self]
        constructor
        · intro h
          have := (ha _ _ _).1 h
          rw [hwindow] at this
          cases this
        · intro h
          exact absurd (Option.some.inj h) (fun hh => ht hh.symm)
      · rw [gtfw_bind_ne _ _ _ _ _ _ (by simp [hw])]
        exact ha _ _ _
  · rw [gwft_bind_ne _ _ _ _ _ _ hu, gtfw_bind_ne _ _ _ _ _ _ (by simp [hu])]
    exact ha _ _ _

theorem unbind_fst_of (s : SMState) (u t : Int) (inner : List (Int × String))
    (w0 : String) (htb : dget s.thread_bindings u = some inner)
    (hin : inner ≠ []) (hdg : dget inner t = some w0) :
    (unbind_thread s u t).1 =
      { s with
        thread_bindings :=
          if derase inner t = [] then derase s.thread_bindings u
          else dset s.thread_bindings u (derase inner t),
        window_to_thread := derase s.window_to_thread (u, w0) } := by
  simp only [unbind_thread, htb, if_neg hin, hdg]

theorem agree_unbind_main (s : SMState) (u t : Int)
    (inner : List (Int × String)) (w0 : String)
    (h1 : (dkeys s.thread_bindings).Nodup)
    (h3 : (dkeys s.window_to_thread).Nodup)
    (hinnd : (dkeys inner).Nodup)
    (ha : Agree s)
    (htb : dget s.thread_bindings u = some inner)
    (hin : inner ≠ [])
    (hdg : dget inner t = some w0) :
    Agree { s with
      thread_bindings :=
        if derase inner t = [] then derase s.thread_bindings u
        else dset s.thread_bindings u (derase inner t),
      window_to_thread := derase s.window_to_thread (u, w0) } := by
  have e2 : ∀ (u'' t'' : Int), u'' ≠ u →
      get_window_for_thread
        { s with
          thread_bindings :=
            if derase inner t = [] then derase s.thread_bindings u
            else dset s.thread_bindings u (derase inner t),
          window_to_thread := derase s.window_to_thread (u, w0) } u'' t'' =
        get_window_for_thread s u'' t'' := by
    intro u'' t'' hne
    simp only [get_window_for_thread]
    by_cases hin' : derase inner t = []
    · rw [if_pos hin', dget_derase_ne _ _ _ hne]
    · rw [if_neg hin', dget_dset_ne _ _ _ _ hne]
  have e1 : ∀ t'' : Int,
      get_window_for_thread
        { s with
          thread_bindings :=
            if derase inner t = [] then derase s.thread_bindings u
            else dset s.thread_bindings u (derase inner t),
          window_to_thread := derase s.window_to_thread (u, w0) } u t'' =
        dget (derase inner t) t'' := by
    intro t''
    simp only [get_window_for_thread]
    by_cases hin' : derase inner t = []
    · rw [if_pos hin', dget_derase_self _ _ h1, hin']
      simp [dget]
    · rw [if_neg hin', dget_dset_self]
      simp [hin']
  have e3 : ∀ (u'' : Int) (w'' : String), (u'', w'') ≠ (u, w0) →
      get_thread_for_window
        { s with
          thread_bindings :=
            if derase inner t = [] then derase s.thread_bindings u
            else dset s.thread_bindings u (derase inner t),
          window_to_thread := derase s.window_to_thread (u, w0) } u'' w'' =
        get_thread_for_window s u'' w'' := by
    intro u'' w'' hne
    simp only [get_thread_for_window]
    exact dget_derase_ne _ _ _ hne
  have e4 : get_thread_for_window
      { s with
        thread_bindings :=
          if derase inner t = [] then derase s.thread_bindings u
          else dset s.thread_bindings u (derase inner t),
        window_to_thread := derase s.window_to_thread (u, w0) } u w0 = none := by
    simp only [get_thread_for_window]
    exact dget_derase_self _ _ h3
  have e6 : dget (derase inner t) t = (none : Option String) :=
    dget_derase_self _ _ hinnd
  have e5 : ∀ t'' : Int, t'' ≠ t → dget (derase inner t) t'' = dget inner t'' :=
    fun t'' h => dget_derase_ne _ _ _ h
  have holdt : ∀ t'' : Int, get_window_for_thread s u t'' = dget inner t'' := by
    intro t''
    simp [get_window_for_thread, htb, hin]
  have hold : get_window_for_thread s u t = some w0 := by rw [holdt]; exact hdg
  intro u' t' w'
  by_cases hu : u' = u
  · rw [hu]
    by_cases hw : w' = w0
    · rw [hw, e4]
      constructor
      · intro h
        rw [e1] at h
        by_cases ht : t' = t
        · rw [ht, e6] at h
          exact Option.noConfusion h
        · rw [e5 _ ht] at h
          have h01 := (ha u t' w0).1 (by rw [holdt]; exact h)
          have h02 := (ha u t w0).1 hold
          rw [h01] at h02
          exact absurd (Option.some.inj h02) ht
      · intro h
        exact Option.noConfusion h
    · rw [e3 _ _ (by simp [hw])]
      by_cases ht : t' = t
      · rw [ht, e1, e6]
        constructor
        · intro h
          exact Option.noConfusion h
        · intro h
          have hthis := (ha u t w').2 h
          rw [hold] at hthis
          exact absurd (Option.some.inj hthis) (fun hh => hw hh.symm)
      · rw [e1, e5 _ ht, ← holdt]
        exact ha u t' w'
  · rw [e2 _ _ hu, e3 _ _ (by simp [hu])]
    exact ha u' t' w'

theorem agree_unbind (s : SMState) (u t : Int) (hwf : WF s) (ha : Agree s) :
    Agree (unbind_thread s u t).1 := by
  obtain ⟨h1, h2, h3⟩ := hwf
  cases htb : dget s.thread_bindings u with
  | none => simp only [unbind_thread, htb]; exact ha
  | some inner =>
    by_cases hin : inner = []
    · simp only [unbind_thread, htb, if_pos hin]; exact ha
    · cases hdg : dget inner t with
      | none => simp only [unbind_thread, htb, if_neg hin, hdg]; exact ha
      | some w0 =>
        rw [unbind_fst_of s u t inner w0 htb hin hdg]
        exact agree_unbind_main s u t inner w0 h1 h3
          ((h2 _ (dget_mem _ _ _ htb)).1) ha htb hin hdg

theorem gwft_unbind_self (s : SMState) (u t : Int) (hwf : WF s) :
    get_window_for_thread (unbind_thread s u t).1 u t = none := by
  obtain ⟨h1, h2, h3⟩ := hwf
  cases htb : dget s.thread_bindings u with
  | none =>
    simp only [unbind_thread, htb]
    simp [get_window_for_thread, htb]
  | some inner =>
    by_cases hin : inner = []
    · simp only [unbind_thread, htb, if_pos hin]
      simp [get_window_for_thread, htb, hin]
    · cases hdg : dget inner t with
      | none =>
        simp only [unbind_thread, htb, if_neg hin, hdg]
        simp [get_window_for_thread, htb, hin, hdg]
      | some w0 =>
        have hinnd : (dkeys inner).Nodup := (h2 _ (dget_mem _ _ _ htb)).1
        rw [unbind_fst_of s u t inner w0 htb hin hdg]
        simp only [get_window_for_thread]
        by_cases hin' : derase inner t = []
        · rw [if_pos hin', dget_derase_self _ _ h1]
        · rw [if_neg hin', dget_dset_self]
          simp [hin', dget_derase_self _ _ hinnd]

theorem guarded_agree_prefix :
    ∀ (pre : List Op) (s : SMState) (ops suf : List Op),
      WF s → Agree s → Guarded s ops → ops = pre ++ suf →
      Agree (runFrom s pre) := by
  intro pre
  induction pre with
  | nil =>
    intro s ops suf hwf ha _ _
    exact ha
  | cons op pre ih =>
    intro s ops suf hwf ha hg heq
    subst heq
    cases hg with
    | bind _ u t w _ hthread hwindow htail =>
      exact ih (bind_thread s u t w) (pre ++ suf) suf (wf_bind _ _ _ _ hwf)
        (agree_bind _ _ _ _ ha hthread hwindow) htail rfl
    | unbind _ u t _ htail =>
      exact ih (applyOp s (Op.unbind u t)) (pre ++ suf) suf (wf_applyOp _ _ hwf)
        (agree_unbind _ _ _ hwf ha) htail rfl

/-! ### Claims C1 and C2 -/

/-- Claim C1 (amended).  Immediately after `bind_thread(c,t,w)`,
`get_thread_for_window(c,w)` returns `t` (unconditionally, for every
state), and after `unbind_thread(c,t)`, `get_window_for_thread(c,t)`
returns `None` (for every state reachable by bind/unbind operations).
Full agreement of the forward `thread_bindings` map with the in-memory
reverse index holds at all times for every *guarded* sequence of
bind/unbind operations — one in which `bind_thread` is only invoked on a
currently-unbound thread and a currently-unbound window, which is exactly
what the command handlers check before calling the store.  (For unguarded
sequences agreement can fail; see the counterexample.) -/
theorem C1_reverse_index_agreement :
    (∀ (ops pre suf : List Op), Guarded initState ops → ops = pre ++ suf →
        Agree (runFrom initState pre)) ∧
    (∀ (s : SMState) (u t : Int) (w : String),
        get_thread_for_window (bind_thread s u t w) u w = some t) ∧
    (∀ (ops : List Op) (u t : Int),
        get_window_for_thread (unbind_thread (runFrom initState ops) u t).1 u t
          = none) := by
  refine ⟨?_, ?_, ?_⟩
  · intro ops pre suf hg heq
    exact guarded_agree_prefix pre initState ops suf wf_initState agree_initState hg heq
  · intro s u t w
    exact gtfw_bind_self s u t w
  · intro ops u t
    exact gwft_unbind_self _ u t (wf_runFrom _ _ wf_initState)

/-- Witness for C1: a concrete guarded run — bind thread 1 to window `"a"`
for user 5 — after which the forward and reverse maps agree, and a
concrete unbind after which the forward lookup is `None`. -/
theorem C1_reverse_index_agreement_witness :
    Agree (runFrom initState [Op.bind 5 1 "a"]) ∧
    get_thread_for_window (bind_thread initState 5 1 "a") 5 "a" = some 1 ∧
    get_window_for_thread
      (unbind_thread (runFrom initState [Op.bind 5 1 "a"]) 5 1).1 5 1 = none :=
  ⟨C1_reverse_index_agreement.1 [Op.bind 5 1 "a"] [Op.bind 5 1 "a"] []
      (Guarded.bind initState 5 1 "a" [] rfl rfl (Guarded.nil _)) rfl,
    C1_reverse_index_agreement.2.1 initState 5 1 "a",
    C1_reverse_index_agreement.2.2 [Op.bind 5 1 "a"] 5 1⟩

/-- Counterexample for C1 as stated: for the (unguarded) sequence
`bind(5,1,"a"); bind(5,1,"b")` — rebinding an already-bound thread — the
reverse index still maps window `"a"` to thread 1 while the forward map
sends thread 1 to `"b"`: the two structures disagree, so the invariant
does not hold for *every* sequence of bind/unbind operations. -/
theorem C1_reverse_index_agreement_counterexample :
    get_thread_for_window
        (runFrom initState [Op.bind 5 1 "a", Op.bind 5 1 "b"]) 5 "a" = some 1 ∧
    get_window_for_thread
        (runFrom initState [Op.bind 5 1 "a", Op.bind 5 1 "b"]) 5 1 = some "b" := by
  exact ⟨rfl, rfl⟩

/-- Claim C2 (amended).  `bind_thread` itself does not enforce window
uniqueness: the store relies on its callers, which only bind a window that
is currently unbound.  For every such guarded sequence of
bind/unbind operations, at every point of the sequence, no two distinct
thread ids of the same user map to the same window name. -/
theorem C2_window_bound_once :
    ∀ (ops pre suf : List Op) (u t1 t2 : Int) (w : String),
      Guarded initState ops → ops = pre ++ suf →
      get_window_for_thread (runFrom initState pre) u t1 = some w →
      get_window_for_thread (runFrom initState pre) u t2 = some w →
      t1 = t2 := by
  intro ops pre suf u t1 t2 w hg heq h1 h2
  have ha := guarded_agree_prefix pre initState ops suf wf_initState
    agree_initState hg heq
  have e1 := (ha u t1 w).1 h1
  have e2 := (ha u t2 w).1 h2
  rw [e1] at e2
  exact Option.some.inj e2

/-- Witness for C2 at the guarded two-bind run
`bind(5,1,"a"); bind(5,2,"b")`. -/
theorem C2_window_bound_once_witness : (1 : Int) = 1 :=
  C2_window_bound_once [Op.bind 5 1 "a", Op.bind 5 2 "b"]
    [Op.bind 5 1 "a", Op.bind 5 2 "b"] [] 5 1 1 "a"
    (Guarded.bind initState 5 1 "a" [Op.bind 5 2 "b"] rfl rfl
      (Guarded.bind (bind_thread initState 5 1 "a") 5 2 "b" [] rfl rfl
        (Guarded.nil _)))
    rfl rfl rfl

/-- Counterexample for C2 as stated: the store itself accepts
`bind(5,1,"w"); bind(5,2,"w")`, after which two distinct threads of user 5
are bound to the same window `"w"` in `thread_bindings` — so uniqueness is
not enforced by the store for arbitrary operation sequences. -/
theorem C2_window_bound_once_counterexample :
    get_window_for_thread
        (runFrom initState [Op.bind 5 1 "w", Op.bind 5 2 "w"]) 5 1 = some "w" ∧
    get_window_for_thread
        (runFrom initState [Op.bind 5 1 "w", Op.bind 5 2 "w"]) 5 2 = some "w" ∧
    (1 : Int) ≠ 2 :=
  ⟨rfl, rfl, by decide⟩

/-! ### Claim C10: frame effect of `clear_window_session` -/

/-- Claim C10.  For a window already present in `window_states`,
`clear_window_session` empties that window's `session_id` while leaving
the window's `cwd`, every other window's state, all read offsets and all
thread bindings (and the reverse index) unchanged. -/
theorem C10_clear_window_session_frame (s : SMState) (w : String)
    (st0 : WindowState) (h : dget s.window_states w = some st0) :
    dget (clear_window_session s w).window_states w =
      some { session_id := "", cwd := st0.cwd } ∧
    (∀ w' : String, w' ≠ w →
      dget (clear_window_session s w).window_states w' = dget s.window_states w') ∧
    (clear_window_session s w).user_window_offsets = s.user_window_offsets ∧
    (clear_window_session s w).thread_bindings = s.thread_bindings ∧
    (clear_window_session s w).window_to_thread = s.window_to_thread := by
  simp only [clear_window_session, get_window_state, h]
  exact ⟨dget_dset_self _ _ _, fun w' hne => dget_dset_ne _ _ _ _ hne,
    trivial, trivial, trivial⟩

/-- Witness for C10 at a concrete one-window store. -/
theorem C10_clear_window_session_frame_witness :
    dget (clear_window_session
        { initState with
          window_states := [("proj", { session_id := "sid-1", cwd := "/d/proj" })] }
        "proj").window_states "proj" =
      some { session_id := "", cwd := "/d/proj" } ∧
    (∀ w' : String, w' ≠ "proj" →
      dget (clear_window_session
          { initState with
            window_states := [("proj", { session_id := "sid-1", cwd := "/d/proj" })] }
          "proj").window_states w' =
        dget [("proj", ({ session_id := "sid-1", cwd := "/d/proj" } : WindowState))] w') ∧
    (clear_window_session
        { initState with
          window_states := [("proj", { session_id := "sid-1", cwd := "/d/proj" })] }
        "proj").user_window_offsets = [] ∧
    (clear_window_session
        { initState with
          window_states := [("proj", { session_id := "sid-1", cwd := "/d/proj" })] }
        "proj").thread_bindings = [] ∧
    (clear_window_session
        { initState with
          window_states := [("proj", { session_id := "sid-1", cwd := "/d/proj" })] }
        "proj").window_to_thread = [] :=
  C10_clear_window_session_frame
    { initState with
      window_states := [("proj", { session_id := "sid-1", cwd := "/d/proj" })] }
    "proj" { session_id := "sid-1", cwd := "/d/proj" } rfl

/-! ## Transcript monitor (`src/ccbot/session_monitor.py`) -/

/-- `SessionMonitor._read_new_lines`: the file is embedded as its byte
sequence; the stored `last_byte_offset` is reset to `0` when it exceeds
the file size (truncation, e.g. after `/clear`), the bytes from the
(possibly reset) offset to the end are delivered to the line parser, and
the stored offset becomes the end-of-file position.  Returns
`(delivered bytes, new last_byte_offset)`. -/
def read_new_lines (last_byte_offset : Nat) (file : List Nat) :
    List Nat × Nat :=
  let file_size := file.length
  let offset := if last_byte_offset > file_size then 0 else last_byte_offset
  (file.drop offset, file_size)

/-- Claim C4.  When the stored offset exceeds the current transcript file
size, the monitor's next read resets the offset to 0 and delivers the
whole file; the same reset applies in `get_unread_info` when the persisted
per-user read offset exceeds the file size (start offset 0, everything
unread). -/
theorem C4_truncation_resets_offset :
    (∀ (off : Nat) (file : List Nat), off > file.length →
        read_new_lines off file = (file, file.length)) ∧
    (∀ (s : SMState) (u : Int) (w : String) (off size : Nat),
        get_user_window_offset s u w = some off → off > size →
        get_unread_info s u w size =
          { has_unread := decide (0 < size), start_offset := 0,
            end_offset := size }) := by
  constructor
  · intro off file hgt
    simp [read_new_lines, if_pos hgt]
  · intro s u w off size hoff hgt
    simp [get_unread_info, hoff, if_pos hgt]

/-- Witness for C4: a 3-byte file with stored offset 5 is re-read from the
start, and a persisted read offset 9 over a 4-byte file reports the whole
file unread from offset 0. -/
theorem C4_truncation_resets_offset_witness :
    read_new_lines 5 [10, 20, 30] = ([10, 20, 30], 3) ∧
    get_unread_info
        { initState with user_window_offsets := [(7, [("w", 9)])] } 7 "w" 4 =
      { has_unread := true, start_offset := 0, end_offset := 4 } :=
  ⟨C4_truncation_resets_offset.1 5 [10, 20, 30] (by decide),
    C4_truncation_resets_offset.2
      { initState with user_window_offsets := [(7, [("w", 9)])] } 7 "w" 9 4
      rfl (by decide)⟩

/-- Claim C8.  For a recipient with no recorded read offset for a window,
`get_unread_info` reports no unread content and both offsets equal to the
current transcript file size, so no backlog is delivered on first view. -/
theorem C8_first_view_no_backlog (s : SMState) (u : Int) (w : String)
    (size : Nat) (h : get_user_window_offset s u w = none) :
    get_unread_info s u w size =
      { has_unread := false, start_offset := size, end_offset := size } := by
  simp [get_unread_info, h]

/-- Witness for C8 at the empty store and a 1234-byte transcript. -/
theorem C8_first_view_no_backlog_witness :
    get_unread_info initState 3 "proj" 1234 =
      { has_unread := false, start_offset := 1234, end_offset := 1234 } :=
  C8_first_view_no_backlog initState 3 "proj" 1234 rfl

/-! ## Delivery queue (`src/ccbot/handlers/message_queue.py`) -/

/-- The `task_type` literal of `MessageTask`. -/
inductive TaskType where
  | content
  | status_update
  | status_clear
deriving DecidableEq

/-- `MessageTask` from `message_queue.py`, with the same defaults. -/
structure MessageTask where
  task_type : TaskType
  text : Option String := none
  window_name : Option String := none
  parts : List String := []
  tool_use_id : Option String := none
  content_type : String := "text"
  thread_id : Option Int := none
deriving DecidableEq

/-- `MERGE_MAX_LENGTH` from `message_queue.py`. -/
def MERGE_MAX_LENGTH : Nat := 3800

/-- `sum(len(p) for p in parts)` (Python `len` counts characters). -/
def partsLength (parts : List String) : Nat := (parts.map String.length).sum

theorem partsLength_append (xs ys : List String) :
    partsLength (xs ++ ys) = partsLength xs + partsLength ys := by
  simp [partsLength]

/-- `_can_merge_tasks`: same window, candidate is a content task, and
neither side is a `tool_use`/`tool_result` (those break the merge chain). -/
def can_merge_tasks (base candidate : MessageTask) : Bool :=
  if base.window_name ≠ candidate.window_name then false
  else if candidate.task_type ≠ TaskType.content then false
  else if base.content_type = "tool_use" ∨ base.content_type = "tool_result" then
    false
  else if candidate.content_type = "tool_use" ∨
      candidate.content_type = "tool_result" then false
  else true

/-- The scan loop of `_merge_content_tasks`: absorb queue items in order
while they are mergeable and the combined length stays within
`MERGE_MAX_LENGTH`; on the first failure keep that item and everything
after it.  Returns `(merged_parts, merge_count, remaining)`. -/
def merge_content_tasks_go (first : MessageTask) :
    List MessageTask → List String → Nat → Nat →
      List String × Nat × List MessageTask
  | [], merged_parts, _, merge_count => (merged_parts, merge_count, [])
  | task :: rest, merged_parts, current_length, merge_count =>
    if ¬ can_merge_tasks first task then
      (merged_parts, merge_count, task :: rest)
    else if current_length + partsLength task.parts > MERGE_MAX_LENGTH then
      (merged_parts, merge_count, task :: rest)
    else
      merge_content_tasks_go first rest (merged_parts ++ task.parts)
        (current_length + partsLength task.parts) (merge_count + 1)

/-- `_merge_content_tasks` on the drained queue contents: the remaining
items are put back in order (the queue-counter compensation is a
no-observable-effect detail); with `merge_count = 0` the first task is
returned unchanged, otherwise a fresh content task carries the merged
parts and the first task's window, tool id, content type and thread. -/
def merge_content_tasks (first : MessageTask) (queued : List MessageTask) :
    MessageTask × Nat × List MessageTask :=
  let r := merge_content_tasks_go first queued first.parts
    (partsLength first.parts) 0
  if r.2.1 = 0 then (first, 0, r.2.2)
  else
    ({ task_type := TaskType.content,
       window_name := first.window_name,
       parts := r.1,
       tool_use_id := first.tool_use_id,
       content_type := first.content_type,
       thread_id := first.thread_id }, r.2.1, r.2.2)

theorem can_merge_tasks_eq_true (base candidate : MessageTask)
    (h : can_merge_tasks base candidate = true) :
    base.window_name = candidate.window_name ∧
    candidate.task_type = TaskType.content ∧
    base.content_type ≠ "tool_use" ∧ base.content_type ≠ "tool_result" ∧
    candidate.content_type ≠ "tool_use" ∧
    candidate.content_type ≠ "tool_result" := by
  simp only [can_merge_tasks] at h
  split_ifs at h with h1 h2 h3 h4
  push_neg at h1 h2 h3 h4
  exact ⟨h1, h2, h3.1, h3.2, h4.1, h4.2⟩

theorem merge_content_tasks_go_spec (first : MessageTask) :
    ∀ (items : List MessageTask) (parts : List String) (cnt : Nat),
      ∃ absorbed : List MessageTask,
        items = absorbed ++
          (merge_content_tasks_go first items parts (partsLength parts) cnt).2.2 ∧
        (merge_content_tasks_go first items parts (partsLength parts) cnt).2.1 =
          cnt + absorbed.length ∧
        (merge_content_tasks_go first items parts (partsLength parts) cnt).1 =
          parts ++ (absorbed.map MessageTask.parts).flatten ∧
        (∀ task ∈ absorbed, can_merge_tasks first task = true) ∧
        partsLength
            (merge_content_tasks_go first items parts (partsLength parts) cnt).1 ≤
          max (partsLength parts) MERGE_MAX_LENGTH := by
  intro items
  induction items with
  | nil =>
    intro parts cnt
    exact ⟨[], by simp [merge_content_tasks_go], by simp [merge_content_tasks_go],
      by simp [merge_content_tasks_go], by simp,
      by simp [merge_content_tasks_go, le_max_left]⟩
  | cons task rest ih =>
    intro parts cnt
    by_cases hc : can_merge_tasks first task
    · by_cases hl : partsLength parts + partsLength task.parts > MERGE_MAX_LENGTH
      · refine ⟨[], ?_, ?_, ?_, by simp, ?_⟩ <;>
          simp [merge_content_tasks_go, hc, hl, le_max_left]
      · obtain ⟨absorbed, he1, he2, he3, he4, he5⟩ :=
          ih (parts ++ task.parts) (cnt + 1)
        rw [partsLength_append] at he1 he2 he3 he5
        refine ⟨task :: absorbed, ?_, ?_, ?_, ?_, ?_⟩
        · simpa [merge_content_tasks_go, hc, hl] using congrArg (task :: ·) he1
        · simp only [merge_content_tasks_go, hc, hl]
          simp only [not_true_eq_false, if_false, if_neg hl]
          rw [he2]
          simp [List.length_cons]
          omega
        · simp only [merge_content_tasks_go, hc, hl]
          simp only [not_true_eq_false, if_false, if_neg hl]
          rw [he3]
          simp [List.flatten_cons, List.append_assoc]
        · intro t ht
          rcases List.mem_cons.1 ht with h | h
          · exact h ▸ hc
          · exact he4 t h
        · simp only [merge_content_tasks_go, hc, hl]
          simp only [not_true_eq_false, if_false, if_neg hl]
          refine le_trans he5 ?_
          have hle : partsLength parts + partsLength task.parts ≤
              MERGE_MAX_LENGTH := le_of_not_lt hl
          exact max_le (le_max_of_le_right hle) (le_max_right _ _)
    · refine ⟨[], ?_, ?_, ?_, by simp, ?_⟩ <;>
        simp [merge_content_tasks_go, hc, le_max_left]

/-- Claim C3.  `_merge_content_tasks` absorbs a prefix of the queued tasks
into the dequeued content task: every absorbed candidate is a content task
with the first task's window name, and neither the base task nor any
absorbed candidate has content type `tool_use` or `tool_result`; the
merged parts are the base parts followed by the absorbed tasks' parts in
queue order; the non-absorbed tasks are kept, in FIFO order; and the total
merged length is at most `MERGE_MAX_LENGTH` (3800) plus the length of the
one base task. -/
theorem C3_merge_content_tasks_spec (first : MessageTask)
    (queued : List MessageTask) :
    ∃ absorbed : List MessageTask,
      queued = absorbed ++ (merge_content_tasks first queued).2.2 ∧
      (merge_content_tasks first queued).2.1 = absorbed.length ∧
      (merge_content_tasks first queued).1.parts =
        first.parts ++ (absorbed.map MessageTask.parts).flatten ∧
      (∀ task ∈ absorbed,
        task.task_type = TaskType.content ∧
        task.window_name = first.window_name ∧
        task.content_type ≠ "tool_use" ∧ task.content_type ≠ "tool_result") ∧
      (absorbed ≠ [] →
        first.content_type ≠ "tool_use" ∧
        first.content_type ≠ "tool_result") ∧
      partsLength (merge_content_tasks first queued).1.parts ≤
        MERGE_MAX_LENGTH + partsLength first.parts := by
  obtain ⟨absorbed, he1, he2, he3, he4, he5⟩ :=
    merge_content_tasks_go_spec first queued first.parts 0
  have hbound : max (partsLength first.parts) MERGE_MAX_LENGTH ≤
      MERGE_MAX_LENGTH + partsLength first.parts :=
    max_le (Nat.le_add_left _ _) (Nat.le_add_right _ _)
  have hconds : ∀ task ∈ absorbed,
      task.task_type = TaskType.content ∧
      task.window_name = first.window_name ∧
      task.content_type ≠ "tool_use" ∧ task.content_type ≠ "tool_result" := by
    intro t ht
    obtain ⟨c1, c2, _, _, c5, c6⟩ := can_merge_tasks_eq_true first t (he4 t ht)
    exact ⟨c2, c1.symm, c5, c6⟩
  have hbase : absorbed ≠ [] →
      first.content_type ≠ "tool_use" ∧ first.content_type ≠ "tool_result" := by
    intro hne
    cases absorbed with
    | nil => exact absurd rfl hne
    | cons t0 _ =>
      obtain ⟨_, _, c3, c4, _, _⟩ :=
        can_merge_tasks_eq_true first t0 (he4 t0 (List.mem_cons_self _ _))
      exact ⟨c3, c4⟩
  by_cases hz : (merge_content_tasks_go first queued first.parts
      (partsLength first.parts) 0).2.1 = 0
  · have habs : absorbed = [] := by
      rw [hz] at he2
      exact List.eq_nil_of_length_eq_zero (by omega)
    subst habs
    refine ⟨[], ?_, ?_, ?_, hconds, hbase, ?_⟩
    · simpa [merge_content_tasks, hz] using he1
    · simp [merge_content_tasks, hz]
    · simp [merge_content_tasks, hz]
    · simp [merge_content_tasks, hz, Nat.le_add_left]
  · refine ⟨absorbed, ?_, ?_, ?_, hconds, hbase, ?_⟩
    · simpa [merge_content_tasks, hz] using he1
    · simpa [merge_content_tasks, hz] using he2
    · simpa [merge_content_tasks, hz] using he3
    · simp only [merge_content_tasks, hz]
      exact le_trans (by simpa [merge_content_tasks, hz] using he5) hbound

/-! ### Content-task processing (`_process_content_task`)

The worker's awaited chat calls are embedded as an action trace.  Each
`bot.edit_message_text` / `bot.delete_message` / send appears as one
`BotAction`; the success or failure of an edit (a non-flood-control
exception in Python) and the outcome of a rate-limited send are supplied
by an oracle environment `EditEnv`.  `_check_and_send_status`, whose
pane-capture internals are independent of claim C5, is recorded as the
single marker action `checkStatus`. -/

/-- One awaited chat-platform call made by the queue consumer. -/
inductive BotAction where
  | deleteMessage (message_id : Nat)
  | editMessage (message_id : Nat) (text : String) (markdown : Bool)
  | sendMessage (text : String) (thread_id : Option Int)
  | checkStatus (window_name : String)
deriving DecidableEq

/-- Outcomes of the external calls: whether a given edit (MarkdownV2 or
plain-text) succeeds, and the message id produced by a send (or `none`
when the send fails). -/
structure EditEnv where
  editMdOk : Nat → String → Bool
  editPlainOk : Nat → String → Bool
  sendResult : String → Option Nat

/-- The module-level registries of `message_queue.py` that C5 touches:
`_tool_msg_ids : (tool_use_id, user_id, thread_id_or_0) → message_id` and
`_status_msg_info : (user_id, thread_id_or_0) → (message_id, window_name,
last_text)`. -/
structure QState where
  tool_msg_ids : List ((String × Int × Int) × Nat) := []
  status_msg_info : List ((Int × Int) × (Nat × String × String)) := []
deriving DecidableEq

/-- `_do_clear_status_message`: pop the status entry; when one was present
delete its message. -/
def do_clear_status_message (st : QState) (user_id tid : Int) :
    QState × List BotAction :=
  match dget st.status_msg_info (user_id, tid) with
  | none => (st, [])
  | some info =>
    ({ st with status_msg_info := derase st.status_msg_info (user_id, tid) },
      [BotAction.deleteMessage info.1])

/-- `_convert_status_to_content`: pop the status entry; delete it when it
belongs to another window; otherwise try a MarkdownV2 edit, then the
plain-text fallback.  Returns the edited message id on success. -/
def convert_status_to_content (env : EditEnv) (st : QState)
    (user_id tid : Int) (window_name content_text : String) :
    QState × List BotAction × Option Nat :=
  match dget st.status_msg_info (user_id, tid) with
  | none => (st, [], none)
  | some info =>
    let st' :=
      { st with status_msg_info := derase st.status_msg_info (user_id, tid) }
    let msg_id := info.1
    let stored_wname := info.2.1
    if stored_wname ≠ window_name then
      (st', [BotAction.deleteMessage msg_id], none)
    else if env.editMdOk msg_id content_text then
      (st', [BotAction.editMessage msg_id content_text true], some msg_id)
    else if env.editPlainOk msg_id content_text then
      (st', [BotAction.editMessage msg_id content_text true,
             BotAction.editMessage msg_id content_text false], some msg_id)
    else
      (st', [BotAction.editMessage msg_id content_text true,
             BotAction.editMessage msg_id content_text false], none)

/-- The part-sending loop of `_process_content_task` (step 2): for the
first part try to repurpose the status message via
`_convert_status_to_content`; otherwise (and for all later parts) send the
part, remembering the message id of the last successful send. -/
def send_parts (env : EditEnv) (user_id : Int) (thread_id : Option Int)
    (tid : Int) (window_name : String) :
    List String → Bool → Option Nat → QState →
      QState × List BotAction × Option Nat
  | [], _, last, st => (st, [], last)
  | part :: rest, first_part, last, st =>
    if first_part then
      match convert_status_to_content env st user_id tid window_name part with
      | (st', acts, some mid) =>
        let r := send_parts env user_id thread_id tid window_name rest false
          (some mid) st'
        (r.1, acts ++ r.2.1, r.2.2)
      | (st', acts, none) =>
        let last' := match env.sendResult part with
          | some mid => some mid
          | none => last
        let r := send_parts env user_id thread_id tid window_name rest false
          last' st'
        (r.1, acts ++ [BotAction.sendMessage part thread_id] ++ r.2.1, r.2.2)
    else
      let last' := match env.sendResult part with
        | some mid => some mid
        | none => last
      let r := send_parts env user_id thread_id tid window_name rest false
        last' st
      (r.1, BotAction.sendMessage part thread_id :: r.2.1, r.2.2)

/-- `plain_text = task.text or full_text` (Python truthiness: an empty or
missing `text` falls back to the joined parts). -/
def plain_fallback_text (task : MessageTask) : String :=
  match task.text with
  | some t => if t ≠ "" then t else String.intercalate "\n\n" task.parts
  | none => String.intercalate "\n\n" task.parts

/-- `_process_content_task`.  Step 1: for a `tool_result` with a recorded
prior message id, pop the id, clear the status message, and edit the prior
message to the `"\n\n"`-joined parts (falling back to a plain-text edit of
`task.text or full_text`); when both edits fail, fall through.  Step 2:
send the parts (converting the status message for the first part).  Step
3: record the last message id for a `tool_use`.  Step 4: check the pane
for a status line.  Python truthiness of `task.tool_use_id` and
`last_msg_id` is modelled by comparing with `""` and `0`. -/
def process_content_task (env : EditEnv) (st : QState) (user_id : Int)
    (task : MessageTask) : QState × List BotAction :=
  let wname := task.window_name.getD ""
  let tid := task.thread_id.getD 0
  let tuid := task.tool_use_id.getD ""
  let step1 : (QState × List BotAction) ⊕ (QState × List BotAction) :=
    if task.content_type = "tool_result" ∧ tuid ≠ "" then
      match dget st.tool_msg_ids (tuid, user_id, tid) with
      | some edit_msg_id =>
        let st1 :=
          { st with tool_msg_ids := derase st.tool_msg_ids (tuid, user_id, tid) }
        let cleared := do_clear_status_message st1 user_id tid
        let full_text := String.intercalate "\n\n" task.parts
        if env.editMdOk edit_msg_id full_text then
          Sum.inl (cleared.1, cleared.2 ++
            [BotAction.editMessage edit_msg_id full_text true,
             BotAction.checkStatus wname])
        else
          let plain_text := plain_fallback_text task
          if env.editPlainOk edit_msg_id plain_text then
            Sum.inl (cleared.1, cleared.2 ++
              [BotAction.editMessage edit_msg_id full_text true,
               BotAction.editMessage edit_msg_id plain_text false,
               BotAction.checkStatus wname])
          else
            Sum.inr (cleared.1, cleared.2 ++
              [BotAction.editMessage edit_msg_id full_text true,
               BotAction.editMessage edit_msg_id plain_text false])
      | none => Sum.inr (st, [])
    else Sum.inr (st, [])
  match step1 with
  | Sum.inl result => result
  | Sum.inr (st1, acts1) =>
    let r := send_parts env user_id task.thread_id tid wname task.parts true
      none st1
    let st2 := r.1
    let last_msg_id := r.2.2
    let recorded := dset st2.tool_msg_ids (tuid, user_id, tid) (last_msg_id.getD 0)
    let st3 :=
      if last_msg_id.getD 0 ≠ 0 ∧ tuid ≠ "" ∧ task.content_type = "tool_use" then
        { st2 with tool_msg_ids := recorded }
      else st2
    (st3, acts1 ++ r.2.1 ++ [BotAction.checkStatus wname])

theorem do_clear_status_message_tool_ids (st : QState) (u tid : Int) :
    (do_clear_status_message st u tid).1.tool_msg_ids = st.tool_msg_ids := by
  cases h : dget st.status_msg_info (u, tid) <;>
    simp [do_clear_status_message, h]

theorem do_clear_status_message_acts_eq (st : QState)
    (tm : List ((String × Int × Int) × Nat)) (u tid : Int) :
    (do_clear_status_message { st with tool_msg_ids := tm } u tid).2 =
      (do_clear_status_message st u tid).2 := by
  cases h : dget st.status_msg_info (u, tid) <;>
    simp [do_clear_status_message, h]

theorem do_clear_status_message_clears (st : QState) (u tid : Int)
    (hnds : (dkeys st.status_msg_info).Nodup) :
    dget (do_clear_status_message st u tid).1.status_msg_info (u, tid) =
      none := by
  cases h : dget st.status_msg_info (u, tid) with
  | none => simp [do_clear_status_message, h]
  | some info => simp [do_clear_status_message, h, dget_derase_self _ _ hnds]

theorem send_parts_no_status (env : EditEnv) (user_id : Int)
    (thread_id : Option Int) (tid : Int) (wname : String) (st : QState)
    (h : dget st.status_msg_info (user_id, tid) = none) :
    ∀ (parts : List String) (first_part : Bool) (last : Option Nat),
      send_parts env user_id thread_id tid wname parts first_part last st =
        (st, parts.map (fun p => BotAction.sendMessage p thread_id),
          parts.foldl (fun acc p =>
            match env.sendResult p with
            | some mid => some mid
            | none => acc) last) := by
  intro parts
  induction parts with
  | nil => intro first_part last; cases first_part <;> simp [send_parts]
  | cons p rest ih =>
    intro first_part last
    cases first_part with
    | false => simp [send_parts, ih]
    | true => simp [send_parts, convert_status_to_content, h, ih]

/-- Claim C5.  For a content task with `content_type = "tool_result"` and
a `tool_use_id` whose `(tool_use_id, chat, thread)` key has a recorded
prior message id: the consumer removes the key (it is absent from the map
afterwards, in every outcome), clears any status message for the thread
*before* attempting the edit, and edits the prior message to the joined
result text; when both the MarkdownV2 edit and the plain-text fallback
edit fail, it falls through to sending all parts as new messages (followed
by the status check). -/
theorem C5_tool_result_edits_prior_message (env : EditEnv) (st : QState)
    (user_id : Int) (task : MessageTask) (tuid : String) (mid : Nat)
    (hnd : (dkeys st.tool_msg_ids).Nodup)
    (hnds : (dkeys st.status_msg_info).Nodup)
    (hct : task.content_type = "tool_result")
    (hid : task.tool_use_id = some tuid)
    (hne : tuid ≠ "")
    (hmid : dget st.tool_msg_ids (tuid, user_id, task.thread_id.getD 0) =
      some mid) :
    dget (process_content_task env st user_id task).1.tool_msg_ids
        (tuid, user_id, task.thread_id.getD 0) = none ∧
    (∃ rest : List BotAction,
      (process_content_task env st user_id task).2 =
        (do_clear_status_message st user_id (task.thread_id.getD 0)).2 ++
          BotAction.editMessage mid (String.intercalate "\n\n" task.parts)
            true :: rest) ∧
    (env.editMdOk mid (String.intercalate "\n\n" task.parts) = false →
      env.editPlainOk mid (plain_fallback_text task) = false →
      (process_content_task env st user_id task).2 =
        (do_clear_status_message st user_id (task.thread_id.getD 0)).2 ++
          [BotAction.editMessage mid (String.intercalate "\n\n" task.parts)
              true,
            BotAction.editMessage mid (plain_fallback_text task) false] ++
          task.parts.map (fun p => BotAction.sendMessage p task.thread_id) ++
          [BotAction.checkStatus (task.window_name.getD "")]) := by
  have htu : task.tool_use_id.getD "" = tuid := by rw [hid]; rfl
  have hcond : task.content_type = "tool_result" ∧
      task.tool_use_id.getD "" ≠ "" := ⟨hct, htu ▸ hne⟩
  have hnotuse : ¬ (task.content_type = "tool_use") := by
    rw [hct]; intro hh; exact absurd hh (by decide)
  cases hmd : env.editMdOk mid (String.intercalate "\n\n" task.parts) with
  | true =>
    have hres : process_content_task env st user_id task =
        ((do_clear_status_message
            { st with tool_msg_ids :=
                derase st.tool_msg_ids (tuid, user_id, task.thread_id.getD 0) }
            user_id (task.thread_id.getD 0)).1,
          (do_clear_status_message
            { st with tool_msg_ids :=
                derase st.tool_msg_ids (tuid, user_id, task.thread_id.getD 0) }
            user_id (task.thread_id.getD 0)).2 ++
            [BotAction.editMessage mid (String.intercalate "\n\n" task.parts)
                true,
              BotAction.checkStatus (task.window_name.getD "")]) := by
      simp [process_content_task, hcond, htu, hne, hmid, hmd]
    refine ⟨?_, ?_, ?_⟩
    · rw [hres]
      rw [do_clear_status_message_tool_ids]
      exact dget_derase_self _ _ hnd
    · refine ⟨[BotAction.checkStatus (task.window_name.getD "")], ?_⟩
      rw [hres]
      rw [do_clear_status_message_acts_eq]
    · intro hmd' _
      exact Bool.noConfusion hmd'
  | false =>
    cases hpl : env.editPlainOk mid (plain_fallback_text task) with
    | true =>
      have hres : process_content_task env st user_id task =
          ((do_clear_status_message
              { st with tool_msg_ids :=
                  derase st.tool_msg_ids (tuid, user_id, task.thread_id.getD 0) }
              user_id (task.thread_id.getD 0)).1,
            (do_clear_status_message
              { st with tool_msg_ids :=
                  derase st.tool_msg_ids (tuid, user_id, task.thread_id.getD 0) }
              user_id (task.thread_id.getD 0)).2 ++
              [BotAction.editMessage mid
                  (String.intercalate "\n\n" task.parts) true,
                BotAction.editMessage mid (plain_fallback_text task) false,
                BotAction.checkStatus (task.window_name.getD "")]) := by
        simp [process_content_task, hcond, htu, hne, hmid, hmd, hpl]
      refine ⟨?_, ?_, ?_⟩
      · rw [hres]
        rw [do_clear_status_message_tool_ids]
        exact dget_derase_self _ _ hnd
      · refine ⟨[BotAction.editMessage mid (plain_fallback_text task) false,
          BotAction.checkStatus (task.window_name.getD "")], ?_⟩
        rw [hres]
        rw [do_clear_status_message_acts_eq]
      · intro _ hpl'
        exact Bool.noConfusion hpl'
    | false =>
      have hclr : dget (do_clear_status_message
          { st with tool_msg_ids :=
              derase st.tool_msg_ids (tuid, user_id, task.thread_id.getD 0) }
          user_id (task.thread_id.getD 0)).1.status_msg_info
          (user_id, task.thread_id.getD 0) = none :=
        do_clear_status_message_clears _ _ _ (by simpa using hnds)
      have hres : process_content_task env st user_id task =
          ((do_clear_status_message
              { st with tool_msg_ids :=
                  derase st.tool_msg_ids (tuid, user_id, task.thread_id.getD 0) }
              user_id (task.thread_id.getD 0)).1,
            ((do_clear_status_message
              { st with tool_msg_ids :=
                  derase st.tool_msg_ids (tuid, user_id, task.thread_id.getD 0) }
              user_id (task.thread_id.getD 0)).2 ++
              [BotAction.editMessage mid
                  (String.intercalate "\n\n" task.parts) true,
                BotAction.editMessage mid (plain_fallback_text task) false]) ++
              task.parts.map
                (fun p => BotAction.sendMessage p task.thread_id) ++
              [BotAction.checkStatus (task.window_name.getD "")]) := by
        simp [process_content_task, hcond, htu, hne, hmid, hmd, hpl,
          send_parts_no_status _ _ _ _ _ _ hclr, hnotuse]
      refine ⟨?_, ?_, ?_⟩
      · rw [hres]
        rw [do_clear_status_message_tool_ids]
        exact dget_derase_self _ _ hnd
      · refine ⟨[BotAction.editMessage mid (plain_fallback_text task) false] ++
          task.parts.map (fun p => BotAction.sendMessage p task.thread_id) ++
          [BotAction.checkStatus (task.window_name.getD "")], ?_⟩
        rw [hres]
        rw [do_clear_status_message_acts_eq]
        simp
      · intro _ _
        rw [hres]
        rw [do_clear_status_message_acts_eq]

/-- Witness for C5: a concrete environment where both edits fail, a store
with a recorded tool message id 33 and a status message 50, and a
two-part `tool_result` task. -/
theorem C5_tool_result_edits_prior_message_witness :
    dget (process_content_task
        { editMdOk := fun _ _ => false, editPlainOk := fun _ _ => false,
          sendResult := fun _ => some 77 }
        { tool_msg_ids := [(("T1", 9, 0), 33)],
          status_msg_info := [((9, 0), (50, "w", "busy"))] }
        9
        { task_type := TaskType.content, window_name := some "w",
          parts := ["a", "b"], tool_use_id := some "T1",
          content_type := "tool_result" }).1.tool_msg_ids ("T1", 9, 0) =
      none ∧
    (∃ rest : List BotAction,
      (process_content_task
        { editMdOk := fun _ _ => false, editPlainOk := fun _ _ => false,
          sendResult := fun _ => some 77 }
        { tool_msg_ids := [(("T1", 9, 0), 33)],
          status_msg_info := [((9, 0), (50, "w", "busy"))] }
        9
        { task_type := TaskType.content, window_name := some "w",
          parts := ["a", "b"], tool_use_id := some "T1",
          content_type := "tool_result" }).2 =
        (do_clear_status_message
          { tool_msg_ids := [(("T1", 9, 0), 33)],
            status_msg_info := [((9, 0), (50, "w", "busy"))] } 9 0).2 ++
          BotAction.editMessage 33 (String.intercalate "\n\n" ["a", "b"])
            true :: rest) ∧
    ((fun (_ : Nat) (_ : String) => false) 33
        (String.intercalate "\n\n" ["a", "b"]) = false →
      (fun (_ : Nat) (_ : String) => false) 33
        (plain_fallback_text
          { task_type := TaskType.content, window_name := some "w",
            parts := ["a", "b"], tool_use_id := some "T1",
            content_type := "tool_result" }) = false →
      (process_content_task
        { editMdOk := fun _ _ => false, editPlainOk := fun _ _ => false,
          sendResult := fun _ => some 77 }
        { tool_msg_ids := [(("T1", 9, 0), 33)],
          status_msg_info := [((9, 0), (50, "w", "busy"))] }
        9
        { task_type := TaskType.content, window_name := some "w",
          parts := ["a", "b"], tool_use_id := some "T1",
          content_type := "tool_result" }).2 =
        (do_clear_status_message
          { tool_msg_ids := [(("T1", 9, 0), 33)],
            status_msg_info := [((9, 0), (50, "w", "busy"))] } 9 0).2 ++
          [BotAction.editMessage 33 (String.intercalate "\n\n" ["a", "b"])
              true,
            BotAction.editMessage 33
              (plain_fallback_text
                { task_type := TaskType.content, window_name := some "w",
                  parts := ["a", "b"], tool_use_id := some "T1",
                  content_type := "tool_result" }) false] ++
          (["a", "b"].map (fun p => BotAction.sendMessage p none)) ++
          [BotAction.checkStatus "w"]) :=
  C5_tool_result_edits_prior_message
    { editMdOk := fun _ _ => false, editPlainOk := fun _ _ => false,
      sendResult := fun _ => some 77 }
    { tool_msg_ids := [(("T1", 9, 0), 33)],
      status_msg_info := [((9, 0), (50, "w", "busy"))] }
    9
    { task_type := TaskType.content, window_name := some "w",
      parts := ["a", "b"], tool_use_id := some "T1",
      content_type := "tool_result" }
    "T1" 33 (by decide) (by decide) rfl rfl (by decide) rfl

/-! ## Terminal parser (`src/ccbot/terminal_parser.py`) -/

/-! Python string primitives, embedded at the character level so that every
definition reduces structurally (`str.strip`, `str.lstrip`,
`str.split("\n")`, `"\n".join`).  Python's `str.strip()` removes a few
more exotic whitespace code points than `Char.isWhitespace` knows; the
pane texts of these claims contain only ASCII whitespace, where the two
agree. -/

/-- `str.strip()` on a character list. -/
def strip_chars (cs : List Char) : List Char :=
  ((cs.dropWhile Char.isWhitespace).reverse.dropWhile Char.isWhitespace).reverse

/-- `str.strip()`. -/
def py_strip (s : String) : String := String.mk (strip_chars s.data)

/-- `str.lstrip()` (the `^\s*` prefix of the UI regexes). -/
def py_lstrip (s : String) : String :=
  String.mk (s.data.dropWhile Char.isWhitespace)

/-- `s.split("\n")` worker: accumulate the current piece (reversed). -/
def split_nl_go : List Char → List Char → List String
  | [], acc => [String.mk acc.reverse]
  | c :: rest, acc =>
    if c = '\n' then String.mk acc.reverse :: split_nl_go rest []
    else split_nl_go rest (c :: acc)

/-- `s.split("\n")`. -/
def split_lines (s : String) : List String := split_nl_go s.data []

/-- `"\n".join(lines)`. -/
def join_nl : List String → String
  | [] => ""
  | [l] => l
  | l :: rest => l ++ "\n" ++ join_nl rest

/-- `pre` is a literal prefix of `s`. -/
def starts_with (s pre : String) : Bool := pre.data.isPrefixOf s.data

/-- `suf` is a literal suffix of `s`. -/
def ends_with (s suf : String) : Bool := suf.data.isSuffixOf s.data

/-! ### Status line (`parse_status_line`) -/

/-- `STATUS_SPINNERS`: the spinner characters of the Claude status line. -/
def STATUS_SPINNERS : List Char := ['·', '✻', '✽', '✶', '✳', '✢']

/-- Whether a line, once stripped, starts with a spinner character. -/
def is_spinner_line (line : String) : Bool :=
  match strip_chars line.data with
  | [] => false
  | c :: _ => decide (c ∈ STATUS_SPINNERS)

/-- `line[1:].strip()` applied to the stripped line. -/
def strip_spinner (line : String) : String :=
  String.mk (strip_chars (strip_chars line.data).tail)

/-- The scan loop of `parse_status_line`: bottom-up over the given lines,
skip blank lines (`if not line: continue`), return the first line whose
stripped form starts with a spinner, with the spinner removed and the rest
stripped. -/
def parse_status_line_go : List String → Option String
  | [] => none
  | line :: rest =>
    match strip_chars line.data with
    | [] => parse_status_line_go rest
    | c :: cs =>
      if c ∈ STATUS_SPINNERS then some (String.mk (strip_chars cs))
      else parse_status_line_go rest

/-- `lines[-15:]` of `pane_text.strip().split("\n")`. -/
def status_scan_lines (pane_text : String) : List String :=
  let lines := split_lines (py_strip pane_text)
  lines.drop (lines.length - 15)

/-- `parse_status_line`: empty pane yields `None`; otherwise scan
`reversed(lines[-15:])` for a spinner line. -/
def parse_status_line (pane_text : String) : Option String :=
  if pane_text = "" then none
  else parse_status_line_go (status_scan_lines pane_text).reverse

/-- The scan as claim C6 words it: the last 15 *non-empty* lines,
bottom-up.  Declared only to exhibit the divergence from the code. -/
def claim_parse_status_line (pane_text : String) : Option String :=
  if pane_text = "" then none
  else
    let lines := (split_lines (py_strip pane_text)).filter
      (fun l => strip_chars l.data ≠ [])
    parse_status_line_go (lines.drop (lines.length - 15)).reverse

theorem parse_status_line_go_eq_find (l : List String) :
    parse_status_line_go l = (l.find? is_spinner_line).map strip_spinner := by
  induction l with
  | nil => rfl
  | cons line rest ih =>
    cases hd : strip_chars line.data with
    | nil =>
      have hsp : is_spinner_line line = false := by simp [is_spinner_line, hd]
      simp [parse_status_line_go, hd, hsp, ih]
    | cons c cs =>
      by_cases hc : c ∈ STATUS_SPINNERS
      · have hsp : is_spinner_line line = true := by
          simp [is_spinner_line, hd, hc]
        simp [parse_status_line_go, hd, hc, hsp, strip_spinner]
      · have hsp : is_spinner_line line = false := by
          simp [is_spinner_line, hd, hc]
        simp [parse_status_line_go, hd, hc, hsp, ih]

/-- Claim C6 (amended).  `parse_status_line` scans the last 15 *raw* lines
of the stripped pane text (not the last 15 non-empty lines) bottom-up,
skipping blank lines, and returns the first line whose stripped form
starts with a spinner character, with the spinner stripped; lines earlier
than those 15 raw lines are never matched, and when no spinner line exists
among them it returns `None`.  Formally: the result is the first
spinner-headed entry of `reversed(lines[-15:])` (blank-skipping is
subsumed — a blank line is never spinner-headed). -/
theorem C6_status_line_last_15_raw_lines (pane_text : String) :
    parse_status_line pane_text =
      ((status_scan_lines pane_text).reverse.find? is_spinner_line).map
        strip_spinner := by
  by_cases hp : pane_text = ""
  · subst hp
    rfl
  · simp [parse_status_line, hp, parse_status_line_go_eq_find]

/-- Counterexample for C6 as stated: in a pane whose last 15 raw lines are
14 blanks followed by `"x"`, the spinner line `"· work"` is among the last
15 *non-empty* lines (there are only two non-empty lines), so the claimed
scan returns `"work"` — yet `parse_status_line` returns `None`, because
the spinner line lies outside the last 15 raw lines. -/
theorem C6_status_line_last_15_raw_lines_counterexample :
    parse_status_line "· work\n\n\n\n\n\n\n\n\n\n\n\n\n\n\nx" = none ∧
    claim_parse_status_line "· work\n\n\n\n\n\n\n\n\n\n\n\n\n\n\nx" =
      some "work" := by
  constructor <;> rfl

/-! ### Interactive-UI extraction (`UI_PATTERNS`, `extract_interactive_content`)

Each compiled regex of `terminal_parser.py` is embedded as a Boolean
predicate over one line.  `re.search` with a `^\s*<literal>` pattern holds
exactly when the line, after `lstrip`, starts with the literal (the
literals begin with a non-whitespace character, so the greedy `\s*` is
unambiguous).  The unanchored patterns with an inner `.*` hold exactly
when the first literal occurs and the second occurs somewhere after it.
`^─{5,}\s*.+\s*─{5,}$` holds exactly when the line starts and ends with
five `─` and is at least 11 characters long (`\s*` and `.+` can absorb any
middle, and dashes may serve as the `.+`). -/

/-- `pat` occurs somewhere in `hay`. -/
def contains_sub (pat : List Char) : List Char → Bool
  | [] => pat.isPrefixOf []
  | c :: rest => pat.isPrefixOf (c :: rest) || contains_sub pat rest

/-- The remainder of `hay` after the first occurrence of `p1`. -/
def after_first (p1 : List Char) : List Char → Option (List Char)
  | [] => if p1.isPrefixOf [] then some [] else none
  | c :: rest =>
    if p1.isPrefixOf (c :: rest) then some ((c :: rest).drop p1.length)
    else after_first p1 rest

/-- `re.search(p1 + ".*" + p2, s)` for literal `p1`, `p2`. -/
def contains_in_order (s p1 p2 : String) : Bool :=
  match after_first p1.data s.data with
  | none => false
  | some remainder => contains_sub p2.data remainder

def re_exit_top_proceed (l : String) : Bool :=
  starts_with (py_lstrip l) "Would you like to proceed?"

def re_exit_top_plan (l : String) : Bool :=
  starts_with (py_lstrip l) "Claude has written up a plan"

def re_exit_bottom_ctrl_g (l : String) : Bool :=
  starts_with (py_lstrip l) "ctrl-g to edit in "

def re_exit_bottom_esc (l : String) : Bool :=
  starts_with (py_lstrip l) "Esc to cancel" ||
    starts_with (py_lstrip l) "Esc to exit"

def re_ask_top (l : String) : Bool := starts_with (py_lstrip l) "☐"

def re_ask_bottom (l : String) : Bool :=
  starts_with (py_lstrip l) "Enter to select"

def re_perm_top_separator (l : String) : Bool :=
  starts_with l "─────" && ends_with l "─────" && decide (l.data.length ≥ 11)

def re_perm_top_legacy (l : String) : Bool :=
  starts_with (py_lstrip l) "Do you want to"

def re_perm_bottom_amend (l : String) : Bool :=
  contains_in_order l "Esc to cancel " " Tab to amend"

def re_perm_bottom_confirm (l : String) : Bool :=
  contains_in_order l "Enter confirm " " Esc cancel"

def re_perm_bottom_legacy (l : String) : Bool :=
  starts_with (py_lstrip l) "Esc to cancel"

def re_restore_top (l : String) : Bool :=
  starts_with (py_lstrip l) "Restore the code"

def re_restore_bottom (l : String) : Bool :=
  starts_with (py_lstrip l) "Enter to continue"

/-- `UIPattern` from `terminal_parser.py` (the compiled regexes become
line predicates; any single match is sufficient). -/
structure UIPattern where
  name : String
  top : List (String → Bool)
  bottom : List (String → Bool)
  min_gap : Nat := 2

/-- `InteractiveUIContent`. -/
structure InteractiveUIContent where
  content : String
  name : String := ""
deriving DecidableEq

/-- `UI_PATTERNS`, in declaration order (order matters). -/
def UI_PATTERNS : List UIPattern := [
  { name := "ExitPlanMode",
    top := [re_exit_top_proceed, re_exit_top_plan],
    bottom := [re_exit_bottom_ctrl_g, re_exit_bottom_esc] },
  { name := "AskUserQuestion",
    top := [re_ask_top], bottom := [re_ask_bottom], min_gap := 1 },
  { name := "PermissionPrompt",
    top := [re_perm_top_separator, re_perm_top_legacy],
    bottom := [re_perm_bottom_amend, re_perm_bottom_confirm,
      re_perm_bottom_legacy] },
  { name := "RestoreCheckpoint",
    top := [re_restore_top], bottom := [re_restore_bottom] }]

/-- `_RE_LONG_DASH`: the whole line is 5 or more `─`. -/
def is_long_dash_line (l : String) : Bool :=
  decide (l.data.length ≥ 5) && l.data.all (fun c => c = '─')

/-- `_shorten_separators`: replace long all-dash lines by `─────`. -/
def shorten_separators (text : String) : String :=
  join_nl ((split_lines text).map
    (fun l => if is_long_dash_line l then "─────" else l))

/-- Index of the first line matching any of the predicates (the top/bottom
scan of `_try_extract`). -/
def first_match_idx (preds : List (String → Bool)) : List String → Option Nat
  | [] => none
  | l :: rest =>
    if preds.any (fun p => p l) then some 0
    else (first_match_idx preds rest).map (· + 1)

/-- `_try_extract`: first top-match line, first subsequent bottom-match
line, the `min_gap` requirement, and the inclusive slice with separators
shortened. -/
def try_extract (lines : List String) (pattern : UIPattern) :
    Option InteractiveUIContent :=
  match first_match_idx pattern.top lines with
  | none => none
  | some top_idx =>
    match first_match_idx pattern.bottom (lines.drop (top_idx + 1)) with
    | none => none
    | some k =>
      let bottom_idx := top_idx + 1 + k
      if bottom_idx - top_idx < pattern.min_gap then none
      else
        some { content := shorten_separators (join_nl
                ((lines.drop top_idx).take (bottom_idx - top_idx + 1))),
               name := pattern.name }

/-- Try the patterns in declaration order; first match wins. -/
def extract_go : List UIPattern → List String → Option InteractiveUIContent
  | [], _ => none
  | p :: rest, lines =>
    match try_extract lines p with
    | some result => some result
    | none => extract_go rest lines

/-- `extract_interactive_content`. -/
def extract_interactive_content (pane_text : String) :
    Option InteractiveUIContent :=
  if pane_text = "" then none
  else extract_go UI_PATTERNS (split_lines (py_strip pane_text))

/-- `_try_extract` as claim C7 words it — without the `min_gap`
requirement.  Declared only to exhibit the divergence from the code. -/
def claim_try_extract (lines : List String) (pattern : UIPattern) :
    Option InteractiveUIContent :=
  match first_match_idx pattern.top lines with
  | none => none
  | some top_idx =>
    match first_match_idx pattern.bottom (lines.drop (top_idx + 1)) with
    | none => none
    | some k =>
      let bottom_idx := top_idx + 1 + k
      some { content := shorten_separators (join_nl
              ((lines.drop top_idx).take (bottom_idx - top_idx + 1))),
             name := pattern.name }

/-- Extraction as claim C7 words it, on top of `claim_try_extract`. -/
def claim_extract_go :
    List UIPattern → List String → Option InteractiveUIContent
  | [], _ => none
  | p :: rest, lines =>
    match claim_try_extract lines p with
    | some result => some result
    | none => claim_extract_go rest lines

/-- `extract_interactive_content` as claim C7 words it. -/
def claim_extract_interactive_content (pane_text : String) :
    Option InteractiveUIContent :=
  if pane_text = "" then none
  else claim_extract_go UI_PATTERNS (split_lines (py_strip pane_text))

theorem first_match_idx_spec (preds : List (String → Bool)) :
    ∀ (ls : List String) (i : Nat),
      first_match_idx preds ls = some i →
      i < ls.length ∧ preds.any (fun p => p (ls.getD i "")) = true ∧
        ∀ j < i, preds.any (fun p => p (ls.getD j "")) = false := by
  intro ls
  induction ls with
  | nil => intro i h; simp [first_match_idx] at h
  | cons l rest ih =>
    intro i h
    cases hl : preds.any (fun p => p l) with
    | true =>
      simp [first_match_idx, hl] at h
      subst h
      exact ⟨Nat.succ_pos _, by simpa using hl,
        fun j hj => absurd hj (Nat.not_lt_zero j)⟩
    | false =>
      simp [first_match_idx, hl] at h
      obtain ⟨i', hi', rfl⟩ := h
      obtain ⟨g1, g2, g3⟩ := ih i' hi'
      refine ⟨by simpa using Nat.succ_lt_succ g1, by simpa using g2, ?_⟩
      intro j hj
      cases j with
      | zero => simpa using hl
      | succ j' => simpa using g3 j' (by omega)

theorem getD_drop (l : List String) :
    ∀ (n k : Nat), (l.drop n).getD k "" = l.getD (n + k) "" := by
  induction l with
  | nil => intro n k; simp [List.getD]
  | cons x rest ih =>
    intro n k
    cases n with
    | zero => simp
    | succ m =>
      simp only [List.drop_succ_cons]
      rw [ih m k]
      have harith : m + 1 + k = (m + k) + 1 := by omega
      rw [harith]
      simp

theorem try_extract_spec (lines : List String) (pat : UIPattern)
    (c : InteractiveUIContent) (h : try_extract lines pat = some c) :
    ∃ ti bi : Nat, ti < lines.length ∧ bi < lines.length ∧ ti < bi ∧
      pat.top.any (fun p => p (lines.getD ti "")) = true ∧
      (∀ j < ti, pat.top.any (fun p => p (lines.getD j "")) = false) ∧
      pat.bottom.any (fun p => p (lines.getD bi "")) = true ∧
      (∀ j, ti < j → j < bi →
        pat.bottom.any (fun p => p (lines.getD j "")) = false) ∧
      pat.min_gap ≤ bi - ti ∧
      c.name = pat.name ∧
      c.content = shorten_separators (join_nl
        ((lines.drop ti).take (bi - ti + 1))) := by
  cases ht : first_match_idx pat.top lines with
  | none => simp [try_extract, ht] at h
  | some ti =>
    cases hb : first_match_idx pat.bottom (lines.drop (ti + 1)) with
    | none => simp [try_extract, ht, hb] at h
    | some k =>
      by_cases hg : ti + 1 + k - ti < pat.min_gap
      · simp [try_extract, ht, hb, hg] at h
      · obtain ⟨hts1, hts2, hts3⟩ := first_match_idx_spec pat.top lines ti ht
        obtain ⟨hbs1, hbs2, hbs3⟩ :=
          first_match_idx_spec pat.bottom (lines.drop (ti + 1)) k hb
        have hlen : k < lines.length - (ti + 1) := by
          have := hbs1
          rwa [List.length_drop] at this
        simp only [try_extract, ht, hb, if_neg hg, Option.some.injEq] at h
        subst h
        refine ⟨ti, ti + 1 + k, hts1, by omega, by omega, hts2, hts3,
          ?_, ?_, by omega, rfl, rfl⟩
        · have := hbs2
          rwa [getD_drop] at this
        · intro j hj1 hj2
          have hj' : j - (ti + 1) < k := by omega
          have hfalse := hbs3 (j - (ti + 1)) hj'
          rw [getD_drop] at hfalse
          have hw : ti + 1 + (j - (ti + 1)) = j := by omega
          rwa [hw] at hfalse

theorem extract_go_spec :
    ∀ (pats : List UIPattern) (lines : List String)
      (c : InteractiveUIContent),
      extract_go pats lines = some c →
      ∃ (i : Nat) (pat : UIPattern), pats.get? i = some pat ∧
        try_extract lines pat = some c ∧
        ∀ (j : Nat) (pat' : UIPattern), j < i → pats.get? j = some pat' →
          try_extract lines pat' = none := by
  intro pats
  induction pats with
  | nil => intro lines c h; simp [extract_go] at h
  | cons p rest ih =>
    intro lines c h
    cases hp : try_extract lines p with
    | some r =>
      simp [extract_go, hp] at h
      exact ⟨0, p, rfl, by rw [hp, h], fun j pat' hj _ =>
        absurd hj (Nat.not_lt_zero _)⟩
    | none =>
      simp [extract_go, hp] at h
      obtain ⟨i, pat, h1, h2, h3⟩ := ih lines c h
      refine ⟨i + 1, pat, by simpa using h1, h2, ?_⟩
      intro j pat' hj hg
      cases j with
      | zero =>
        simp at hg
        rw [← hg]
        exact hp
      | succ j' => exact h3 j' pat' (by omega) (by simpa using hg)

/-- Claim C7 (amended).  When `extract_interactive_content` succeeds, some
UI pattern matched while every earlier pattern in declaration order
failed (first match wins); the extracted block runs from the first line
matching one of the pattern's top regexes to the first subsequent line
matching one of its bottom regexes, with both boundary lines included —
*provided* the bottom line is at least `min_gap` lines after the top
(2 by default, 1 for `AskUserQuestion`; the claim omits this requirement,
see the counterexample); and within the extracted block every line of 5
or more `─` characters is replaced by exactly `─────`. -/
theorem C7_extract_interactive_content_slice (pane_text : String)
    (c : InteractiveUIContent)
    (h : extract_interactive_content pane_text = some c) :
    ∃ (i : Nat) (pat : UIPattern) (ti bi : Nat),
      UI_PATTERNS.get? i = some pat ∧
      (∀ (j : Nat) (pat' : UIPattern), j < i → UI_PATTERNS.get? j = some pat' →
        try_extract (split_lines (py_strip pane_text)) pat' = none) ∧
      ti < (split_lines (py_strip pane_text)).length ∧
      bi < (split_lines (py_strip pane_text)).length ∧ ti < bi ∧
      pat.top.any
        (fun p => p ((split_lines (py_strip pane_text)).getD ti "")) = true ∧
      (∀ j < ti, pat.top.any
        (fun p => p ((split_lines (py_strip pane_text)).getD j "")) = false) ∧
      pat.bottom.any
        (fun p => p ((split_lines (py_strip pane_text)).getD bi "")) = true ∧
      (∀ j, ti < j → j < bi → pat.bottom.any
        (fun p => p ((split_lines (py_strip pane_text)).getD j "")) = false) ∧
      pat.min_gap ≤ bi - ti ∧
      c.name = pat.name ∧
      c.content = shorten_separators (join_nl
        (((split_lines (py_strip pane_text)).drop ti).take (bi - ti + 1))) := by
  have hne : pane_text ≠ "" := by
    intro hp
    rw [hp] at h
    simp [extract_interactive_content] at h
  rw [extract_interactive_content, if_neg hne] at h
  obtain ⟨i, pat, h1, h2, h3⟩ := extract_go_spec UI_PATTERNS _ c h
  obtain ⟨ti, bi, t1, t2, t3, t4, t5, t6, t7, t8, t9, t10⟩ :=
    try_extract_spec _ pat c h2
  exact ⟨i, pat, ti, bi, h1, h3, t1, t2, t3, t4, t5, t6, t7, t8, t9, t10⟩

/-- Witness for C7 at a concrete three-line `ExitPlanMode` pane. -/
theorem C7_extract_interactive_content_slice_witness :
    ∃ (i : Nat) (pat : UIPattern) (ti bi : Nat),
      UI_PATTERNS.get? i = some pat ∧
      (∀ (j : Nat) (pat' : UIPattern), j < i → UI_PATTERNS.get? j = some pat' →
        try_extract (split_lines
          (py_strip "Would you like to proceed?\nfoo\nEsc to cancel")) pat' =
          none) ∧
      ti < (split_lines
        (py_strip "Would you like to proceed?\nfoo\nEsc to cancel")).length ∧
      bi < (split_lines
        (py_strip "Would you like to proceed?\nfoo\nEsc to cancel")).length ∧
      ti < bi ∧
      pat.top.any (fun p => p ((split_lines
        (py_strip "Would you like to proceed?\nfoo\nEsc to cancel")).getD ti
          "")) = true ∧
      (∀ j < ti, pat.top.any (fun p => p ((split_lines
        (py_strip "Would you like to proceed?\nfoo\nEsc to cancel")).getD j
          "")) = false) ∧
      pat.bottom.any (fun p => p ((split_lines
        (py_strip "Would you like to proceed?\nfoo\nEsc to cancel")).getD bi
          "")) = true ∧
      (∀ j, ti < j → j < bi → pat.bottom.any (fun p => p ((split_lines
        (py_strip "Would you like to proceed?\nfoo\nEsc to cancel")).getD j
          "")) = false) ∧
      pat.min_gap ≤ bi - ti ∧
      ({ content := "Would you like to proceed?\nfoo\nEsc to cancel",
         name := "ExitPlanMode" } : InteractiveUIContent).name = pat.name ∧
      ({ content := "Would you like to proceed?\nfoo\nEsc to cancel",
         name := "ExitPlanMode" } : InteractiveUIContent).content =
        shorten_separators (join_nl (((split_lines
          (py_strip "Would you like to proceed?\nfoo\nEsc to cancel")).drop
            ti).take (bi - ti + 1))) :=
  C7_extract_interactive_content_slice
    "Would you like to proceed?\nfoo\nEsc to cancel"
    { content := "Would you like to proceed?\nfoo\nEsc to cancel",
      name := "ExitPlanMode" }
    rfl

/-- Counterexample for C7 as stated: with the pane
`"Would you like to proceed?"` directly followed by `"Esc to cancel"`, the
top and bottom markers of `ExitPlanMode` match adjacent lines; the claimed
extraction (no gap requirement) returns the two-line slice, but the code
requires `bottom - top ≥ min_gap = 2` and — with no other pattern
matching — returns `None`. -/
theorem C7_extract_interactive_content_slice_counterexample :
    extract_interactive_content "Would you like to proceed?\nEsc to cancel" =
      none ∧
    claim_extract_interactive_content
        "Would you like to proceed?\nEsc to cancel" =
      some { content := "Would you like to proceed?\nEsc to cancel",
             name := "ExitPlanMode" } := by
  constructor <;> rfl

/-! ## Tmux driver (`src/ccbot/multiplexer/tmux_backend.py`)

`TmuxBackend.send_keys` is embedded as the sequence of externally visible
events it produces, in program order: keystroke batches delivered to the
pane (`pane.send_keys`), and the explicit `asyncio.sleep(0.5)` — 500
milliseconds — between the text and the Enter keystroke.  The oracle
booleans state whether each lookup/delivery step succeeds (session,
window and pane found, no exception). -/

/-- An externally visible event of the driver, in program order. -/
inductive MuxEvent where
  | keys (text : String) (enter : Bool) (literal : Bool)
  | sleepMs (ms : Nat)
  | enterKey
deriving DecidableEq

/-- Success oracles for the three delivery paths of `send_keys`. -/
structure TmuxEnv where
  textDelivered : Bool
  enterDelivered : Bool
  plainDelivered : Bool

/-- `TmuxBackend.send_keys`.  With `literal ∧ enter`: deliver the text
with `enter=False, literal=True`; on failure return; otherwise sleep 0.5 s
and only then deliver the Enter keystroke.  Any other flag combination is
a single `pane.send_keys(text, enter, literal)` batch.  Returns the event
trace and the Python return value. -/
def send_keys (env : TmuxEnv) (text : String) (enter literal : Bool) :
    List MuxEvent × Bool :=
  if literal && enter then
    if env.textDelivered then
      if env.enterDelivered then
        ([MuxEvent.keys text false true, MuxEvent.sleepMs 500,
          MuxEvent.enterKey], true)
      else
        ([MuxEvent.keys text false true, MuxEvent.sleepMs 500], false)
    else ([], false)
  else
    if env.plainDelivered then ([MuxEvent.keys text enter literal], true)
    else ([], false)

/-- Claim C9.  For every `send_keys` call with `enter=true` and
`literal=true`: whenever the Enter keystroke appears in the trace, the
text was delivered strictly earlier (in its own batch, with
`enter=false`), and a sleep of at least 500 ms lies strictly between the
two — the Enter keystroke is never issued in the same batch as, or
before, the text. -/
theorem C9_send_keys_delay_before_enter (env : TmuxEnv) (text : String)
    (i : Nat)
    (h : (send_keys env text true true).1.get? i = some MuxEvent.enterKey) :
    ∃ (j k ms : Nat), j < k ∧ k < i ∧
      (send_keys env text true true).1.get? j =
        some (MuxEvent.keys text false true) ∧
      (send_keys env text true true).1.get? k =
        some (MuxEvent.sleepMs ms) ∧
      500 ≤ ms := by
  obtain ⟨td, ed, pd⟩ := env
  cases td with
  | false =>
    simp [send_keys] at h
  | true =>
    cases ed with
    | false =>
      match i with
      | 0 => simp [send_keys] at h
      | 1 => simp [send_keys] at h
      | n + 2 => simp [send_keys] at h
    | true =>
      match i with
      | 0 => simp [send_keys] at h
      | 1 => simp [send_keys] at h
      | 2 =>
        exact ⟨0, 1, 500, by omega, by omega, by simp [send_keys],
          by simp [send_keys], by omega⟩
      | n + 3 => simp [send_keys] at h

/-- Witness for C9: the all-success environment, where Enter sits at
index 2, after the text batch (index 0) and the 500 ms sleep (index 1). -/
theorem C9_send_keys_delay_before_enter_witness :
    ∃ (j k ms : Nat), j < k ∧ k < 2 ∧
      (send_keys ⟨true, true, true⟩ "run tests" true true).1.get? j =
        some (MuxEvent.keys "run tests" false true) ∧
      (send_keys ⟨true, true, true⟩ "run tests" true true).1.get? k =
        some (MuxEvent.sleepMs ms) ∧
      500 ≤ ms :=
  C9_send_keys_delay_before_enter ⟨true, true, true⟩ "run tests" 2 rfl
